import Mathlib

/-!
Shallow embedding of `src/TwoBodyDecay.py` over exact real arithmetic.

Python floats become `ℝ`.  A Python function that can raise an exception
(`math.sqrt` on a negative argument raises `ValueError`, float division by
zero raises `ZeroDivisionError`) is embedded as a function into `Option`,
with `none` marking the raised exception.  Dict four-momenta become the
`FourMomentum` structure.  `lorentzBoost` can in addition return Python's
`None` value (for an unrecognized direction string) without raising, so it
returns `Option (Option FourMomentum)`: the outer layer is the exception
layer, the inner layer is the Python-level `None`.
-/

/-- Python `math.sqrt`: raises `ValueError` on a negative argument,
otherwise returns the nonnegative square root. -/
noncomputable def sqrtE (x : ℝ) : Option ℝ :=
  if x < 0 then none else some (Real.sqrt x)

/-- Python float division: raises `ZeroDivisionError` when the denominator
is zero. -/
noncomputable def divE (a b : ℝ) : Option ℝ :=
  if b = 0 then none else some (a / b)

/-- Four-momentum record, fields as in the source dicts. -/
@[ext]
structure FourMomentum where
  e : ℝ
  px : ℝ
  py : ℝ
  pz : ℝ

/-- Embedding of `getBeta` (src line 20): `sqrt(p**2 / (m**2 + p**2))`.
The division raises when `m = p = 0`; the outer sqrt never sees a negative
argument when the division succeeded. -/
noncomputable def getBeta (m p : ℝ) : Option ℝ :=
  (divE (p ^ 2) (m ^ 2 + p ^ 2)).bind sqrtE

/-- Embedding of `getGamma` (src line 25): `1. / sqrt(1 - beta**2)`.
The sqrt raises when `|beta| > 1`; the division raises when `|beta| = 1`. -/
noncomputable def getGamma (beta : ℝ) : Option ℝ :=
  (sqrtE (1 - beta ^ 2)).bind (divE 1)

/-- Embedding of `getMassFromMomentum` (src line 29):
`sqrt(e**2 - px**2 - py**2 - pz**2)`, raising when the radicand is
negative. -/
noncomputable def getMassFromMomentum (p : FourMomentum) : Option ℝ :=
  sqrtE (p.e ^ 2 - p.px ^ 2 - p.py ^ 2 - p.pz ^ 2)

/-- Embedding of `lorentzBoost` (src lines 33-58).  `getGamma` runs before
the direction dispatch, so an invalid beta raises even for an unrecognized
direction.  The `z` branch is transcribed faithfully from the source: its
energy line reads `gamma * ( p0['e'] - beta*p0['px'] )`, using the
x-component.  An unrecognized direction returns Python `None`
(no exception), embedded as `some none`. -/
noncomputable def lorentzBoost (p0 : FourMomentum) (beta : ℝ)
    (direction : String) : Option (Option FourMomentum) :=
  (getGamma beta).bind fun gamma =>
    if direction = "x" then
      some (some ⟨gamma * (p0.e - beta * p0.px),
                  gamma * (p0.px - beta * p0.e), p0.py, p0.pz⟩)
    else if direction = "y" then
      some (some ⟨gamma * (p0.e - beta * p0.py), p0.px,
                  gamma * (p0.py - beta * p0.e), p0.pz⟩)
    else if direction = "z" then
      some (some ⟨gamma * (p0.e - beta * p0.px), p0.px, p0.py,
                  gamma * (p0.pz - beta * p0.e)⟩)
    else some none

/-- Embedding of `restFrameMomenta` (src lines 61-71):
`p1 = 1/2. * sqrt(m0**2 - (m1 + m2)**2)`, `p2 = -p1`.  The sqrt raises
when the radicand is negative. -/
noncomputable def restFrameMomenta (m0 m1 m2 : ℝ) : Option (ℝ × ℝ) :=
  (sqrtE (m0 ^ 2 - (m1 + m2) ^ 2)).map fun s => (1 / 2 * s, -(1 / 2 * s))

/-- Embedding of `restFrameDecay` (src lines 74-87): daughter energies
`e = sqrt(m**2 + p**2)` with the solved momenta, `py = pz = 0`. -/
noncomputable def restFrameDecay (m0 m1 m2 : ℝ) :
    Option (FourMomentum × FourMomentum) :=
  (restFrameMomenta m0 m1 m2).bind fun dm =>
    (sqrtE (m1 ^ 2 + dm.1 ^ 2)).bind fun e1 =>
      (sqrtE (m2 ^ 2 + dm.2 ^ 2)).bind fun e2 =>
        some (⟨e1, dm.1, 0, 0⟩, ⟨e2, dm.2, 0, 0⟩)

/-- Embedding of `printDecay` (src lines 90-109), restricted to its
computations: it extracts the three invariant masses (which can raise) and
the three momentum magnitudes (whose radicands are sums of squares) before
printing.  The record it renders is returned in place of the text. -/
noncomputable def printDecay (q0 q1 q2 : FourMomentum) :
    Option (FourMomentum × FourMomentum × FourMomentum) :=
  (getMassFromMomentum q0).bind fun _ =>
  (getMassFromMomentum q1).bind fun _ =>
  (getMassFromMomentum q2).bind fun _ =>
  (sqrtE (q0.px ^ 2 + q0.py ^ 2 + q0.pz ^ 2)).bind fun _ =>
  (sqrtE (q1.px ^ 2 + q1.py ^ 2 + q1.pz ^ 2)).bind fun _ =>
  (sqrtE (q2.px ^ 2 + q2.py ^ 2 + q2.pz ^ 2)).bind fun _ =>
  some (q0, q1, q2)

/-- Helper for `decayParticle`: a boosted particle as `printDecay` receives
it.  Subscripting Python `None` (the unrecognized-direction result) would
raise `TypeError`, so the inner `Option` layer joins into the exception
layer. -/
noncomputable def boostedE (p : FourMomentum) (beta : ℝ) (direction : String) :
    Option FourMomentum :=
  (lorentzBoost p beta direction).bind fun o => o

/-- Embedding of `decayParticle` (src lines 113-151).  The value of the
Python function is always `None`; its deliverable is the sequence of decay
records it renders, embedded here as the returned list, in rendering
order.  When `p0 == 0` it stops after the rest-frame record. -/
noncomputable def decayParticle (m0 p0 m1 m2 : ℝ) :
    Option (List (FourMomentum × FourMomentum × FourMomentum)) :=
  (restFrameDecay m0 m1 m2).bind fun rfd =>
  (printDecay ⟨m0, 0, 0, 0⟩ rfd.1 rfd.2).bind fun rec0 =>
  if p0 = 0 then some [rec0] else
  (getBeta m0 p0).bind fun beta =>
  (boostedE ⟨m0, 0, 0, 0⟩ (-beta) ("x")).bind fun q0a =>
  (boostedE rfd.1 (-beta) ("x")).bind fun q1a =>
  (boostedE rfd.2 (-beta) ("x")).bind fun q2a =>
  (printDecay q0a q1a q2a).bind fun rec1 =>
  (boostedE ⟨m0, 0, 0, 0⟩ beta ("x")).bind fun q0b =>
  (boostedE rfd.1 beta ("x")).bind fun q1b =>
  (boostedE rfd.2 beta ("x")).bind fun q2b =>
  (printDecay q0b q1b q2b).bind fun rec2 =>
  (boostedE ⟨m0, 0, 0, 0⟩ (-beta) ("y")).bind fun q0c =>
  (boostedE rfd.1 (-beta) ("y")).bind fun q1c =>
  (boostedE rfd.2 (-beta) ("y")).bind fun q2c =>
  (printDecay q0c q1c q2c).bind fun rec3 =>
  some [rec0, rec1, rec2, rec3]

/-! Basic evaluation lemmas for the embedded primitives. -/

lemma sqrtE_of_nonneg {x : ℝ} (h : 0 ≤ x) : sqrtE x = some (Real.sqrt x) := by
  simp [sqrtE, not_lt.mpr h]

lemma sqrtE_of_neg {x : ℝ} (h : x < 0) : sqrtE x = none := by
  simp [sqrtE, h]

lemma divE_of_ne {a b : ℝ} (h : b ≠ 0) : divE a b = some (a / b) := by
  simp [divE, h]

lemma sqrt_eq_of_sq {a b : ℝ} (hb : 0 ≤ b) (h : b ^ 2 = a) :
    Real.sqrt a = b := by
  rw [← h, Real.sqrt_sq hb]

lemma getGamma_eq {beta : ℝ} (h : beta ^ 2 < 1) :
    getGamma beta = some (1 / Real.sqrt (1 - beta ^ 2)) := by
  have h1 : 0 < 1 - beta ^ 2 := by linarith
  have h2 : Real.sqrt (1 - beta ^ 2) ≠ 0 :=
    ne_of_gt (Real.sqrt_pos.mpr h1)
  rw [getGamma, sqrtE_of_nonneg h1.le, Option.some_bind, divE_of_ne h2]

lemma getGamma_neg (beta : ℝ) : getGamma (-beta) = getGamma beta := by
  rw [getGamma, getGamma, neg_sq]

/-- C8: for m ≥ 0, p ≥ 0, (m, p) ≠ (0, 0), `getBeta` returns
`p / sqrt(m^2 + p^2)`; in particular it returns 0 when p = 0 and m > 0. -/
theorem getBeta_formula (m p : ℝ) (_hm : 0 ≤ m) (hp : 0 ≤ p)
    (hne : ¬(m = 0 ∧ p = 0)) :
    getBeta m p = some (p / Real.sqrt (m ^ 2 + p ^ 2)) ∧
    (p = 0 → 0 < m → getBeta m p = some 0) := by
  have hs : 0 < m ^ 2 + p ^ 2 := by
    rcases not_and_or.mp hne with h | h
    · nlinarith [sq_nonneg p, sq_nonneg m, sq_abs m, abs_pos.mpr h]
    · nlinarith [sq_nonneg p, sq_nonneg m, sq_abs p, abs_pos.mpr h]
  have hmain : getBeta m p = some (p / Real.sqrt (m ^ 2 + p ^ 2)) := by
    rw [getBeta, divE_of_ne (ne_of_gt hs), Option.some_bind,
      sqrtE_of_nonneg (div_nonneg (sq_nonneg p) hs.le),
      Real.sqrt_div (sq_nonneg p), Real.sqrt_sq hp]
  exact ⟨hmain, fun hp0 _ => by rw [hmain, hp0, zero_div]⟩

/-- Witness for C8 at (m, p) = (3, 4): beta = 4/5. -/
theorem getBeta_formula_witness :
    (0:ℝ) ≤ 3 ∧ (0:ℝ) ≤ 4 ∧ ¬((3:ℝ) = 0 ∧ (4:ℝ) = 0) ∧
    (getBeta 3 4 = some (4 / Real.sqrt ((3:ℝ) ^ 2 + (4:ℝ) ^ 2)) ∧
      ((4:ℝ) = 0 → (0:ℝ) < 3 → getBeta 3 4 = some 0)) :=
  ⟨by norm_num, by norm_num, by norm_num,
    getBeta_formula 3 4 (by norm_num) (by norm_num) (by norm_num)⟩

/-- C9: with |beta| < 1, a direction string other than x, y, z makes
`lorentzBoost` return Python `None` (here `some none`: no exception, no
four-momentum). -/
theorem lorentzBoost_unknown_direction (p : FourMomentum) (beta : ℝ)
    (h : |beta| < 1) (d : String)
    (hx : d ≠ "x") (hy : d ≠ "y") (hz : d ≠ "z") :
    lorentzBoost p beta d = some none := by
  have hb : beta ^ 2 < 1 := by
    have := abs_lt.mp h
    nlinarith [this.1, this.2]
  rw [lorentzBoost, getGamma_eq hb, Option.some_bind,
    if_neg hx, if_neg hy, if_neg hz]

/-- Witness for C9 at beta = 0, direction "w". -/
theorem lorentzBoost_unknown_direction_witness :
    |(0:ℝ)| < 1 ∧ ("w" : String) ≠ "x" ∧ ("w" : String) ≠ "y" ∧
    ("w" : String) ≠ "z" ∧
    lorentzBoost ⟨1, 0, 0, 0⟩ 0 ("w") = some none :=
  ⟨by norm_num, by decide, by decide, by decide,
    lorentzBoost_unknown_direction ⟨1, 0, 0, 0⟩ 0 (by norm_num) ("w")
      (by decide) (by decide) (by decide)⟩

/-- C10: `getBeta` depends on its momentum argument only through its
square, so it is even in p; the returned value is nonnegative, and
strictly below 1 whenever m > 0. -/
theorem getBeta_sign_invariant (m p : ℝ) (h : 0 < m ^ 2 + p ^ 2) :
    getBeta m p = getBeta m (-p) ∧
    ∃ b, getBeta m p = some b ∧ 0 ≤ b ∧ (0 < m → b < 1) := by
  have heven : getBeta m (-p) = getBeta m p := by
    rw [getBeta, getBeta, neg_sq]
  have hval : getBeta m p = some (Real.sqrt (p ^ 2 / (m ^ 2 + p ^ 2))) := by
    rw [getBeta, divE_of_ne (ne_of_gt h), Option.some_bind,
      sqrtE_of_nonneg (div_nonneg (sq_nonneg p) h.le)]
  refine ⟨heven.symm, Real.sqrt (p ^ 2 / (m ^ 2 + p ^ 2)), hval,
    Real.sqrt_nonneg _, fun hm => ?_⟩
  have hlt : p ^ 2 / (m ^ 2 + p ^ 2) < 1 := by
    rw [div_lt_one h]
    nlinarith
  calc Real.sqrt (p ^ 2 / (m ^ 2 + p ^ 2))
      < Real.sqrt 1 := Real.sqrt_lt_sqrt (div_nonneg (sq_nonneg p) h.le) hlt
    _ = 1 := Real.sqrt_one

/-- Witness for C10 at (m, p) = (3, 4). -/
theorem getBeta_sign_invariant_witness :
    (0:ℝ) < 3 ^ 2 + 4 ^ 2 ∧
    (getBeta 3 4 = getBeta 3 (-4) ∧
      ∃ b, getBeta 3 4 = some b ∧ 0 ≤ b ∧ ((0:ℝ) < 3 → b < 1)) :=
  ⟨by norm_num, getBeta_sign_invariant 3 4 (by norm_num)⟩

/-- C5: for nonnegative masses, `restFrameMomenta` fails (the sqrt raises)
exactly when m0 < m1 + m2, and otherwise returns the pair
(p, -p) with p = 1/2 * sqrt(m0^2 - (m1+m2)^2). -/
theorem restFrameMomenta_feasibility (m0 m1 m2 : ℝ)
    (h0 : 0 ≤ m0) (h1 : 0 ≤ m1) (h2 : 0 ≤ m2) :
    (m0 < m1 + m2 → restFrameMomenta m0 m1 m2 = none) ∧
    (m1 + m2 ≤ m0 → restFrameMomenta m0 m1 m2 =
      some (1 / 2 * Real.sqrt (m0 ^ 2 - (m1 + m2) ^ 2),
            -(1 / 2 * Real.sqrt (m0 ^ 2 - (m1 + m2) ^ 2)))) := by
  constructor
  · intro h
    have hneg : m0 ^ 2 - (m1 + m2) ^ 2 < 0 := by nlinarith
    rw [restFrameMomenta, sqrtE_of_neg hneg, Option.map_none']
  · intro h
    have hpos : 0 ≤ m0 ^ 2 - (m1 + m2) ^ 2 := by nlinarith
    rw [restFrameMomenta, sqrtE_of_nonneg hpos, Option.map_some']

/-- Witness for C5: infeasible at (1,1,1), feasible at (3,1,1). -/
theorem restFrameMomenta_feasibility_witness :
    ((1:ℝ) < 1 + 1 ∧ restFrameMomenta 1 1 1 = none) ∧
    ((1:ℝ) + 1 ≤ 3 ∧ restFrameMomenta 3 1 1 =
      some (1 / 2 * Real.sqrt ((3:ℝ) ^ 2 - ((1:ℝ) + 1) ^ 2),
            -(1 / 2 * Real.sqrt ((3:ℝ) ^ 2 - ((1:ℝ) + 1) ^ 2)))) :=
  ⟨⟨by norm_num,
    (restFrameMomenta_feasibility 1 1 1 (by norm_num) (by norm_num)
      (by norm_num)).1 (by norm_num)⟩,
   ⟨by norm_num,
    (restFrameMomenta_feasibility 3 1 1 (by norm_num) (by norm_num)
      (by norm_num)).2 (by norm_num)⟩⟩

/-- C6 counterexample: at e = 1, px = 1, py = 1e-9, pz = 0 the mass
squared is -1e-18, inside any plausible numerical tolerance band, yet the
code raises a domain error (returns `none`) instead of clamping to 0. -/
theorem getMassFromMomentum_small_negative_raises :
    getMassFromMomentum ⟨1, 1, 1 / 1000000000, 0⟩ = none := by
  rw [getMassFromMomentum, sqrtE_of_neg]
  norm_num

/-- C6 amended: `getMassFromMomentum` has no tolerance and no clamping:
it fails for every negative mass squared and returns the plain square
root otherwise. -/
theorem getMassFromMomentum_no_clamp (p : FourMomentum) :
    (p.e ^ 2 - p.px ^ 2 - p.py ^ 2 - p.pz ^ 2 < 0 →
      getMassFromMomentum p = none) ∧
    (0 ≤ p.e ^ 2 - p.px ^ 2 - p.py ^ 2 - p.pz ^ 2 →
      getMassFromMomentum p =
        some (Real.sqrt (p.e ^ 2 - p.px ^ 2 - p.py ^ 2 - p.pz ^ 2))) :=
  ⟨fun h => by rw [getMassFromMomentum, sqrtE_of_neg h],
   fun h => by rw [getMassFromMomentum, sqrtE_of_nonneg h]⟩

/-- Witness for C6 amended at two concrete four-momenta. -/
theorem getMassFromMomentum_no_clamp_witness :
    ((0:ℝ) ^ 2 - 1 ^ 2 - 0 ^ 2 - 0 ^ 2 < 0 ∧
      getMassFromMomentum ⟨0, 1, 0, 0⟩ = none) ∧
    ((0:ℝ) ≤ 2 ^ 2 - 1 ^ 2 - 0 ^ 2 - 0 ^ 2 ∧
      getMassFromMomentum ⟨2, 1, 0, 0⟩ =
        some (Real.sqrt ((2:ℝ) ^ 2 - 1 ^ 2 - 0 ^ 2 - 0 ^ 2))) :=
  ⟨⟨by norm_num, (getMassFromMomentum_no_clamp ⟨0, 1, 0, 0⟩).1 (by norm_num)⟩,
   ⟨by norm_num, (getMassFromMomentum_no_clamp ⟨2, 1, 0, 0⟩).2 (by norm_num)⟩⟩

lemma lorentzBoost_z_eq {beta g : ℝ} (h : getGamma beta = some g)
    (p : FourMomentum) :
    lorentzBoost p beta ("z") =
      some (some ⟨g * (p.e - beta * p.px), p.px, p.py,
                  g * (p.pz - beta * p.e)⟩) := by
  rw [lorentzBoost, h, Option.some_bind, if_neg (by decide),
    if_neg (by decide), if_pos rfl]

lemma getGamma_three_fifths : getGamma (3 / 5) = some (5 / 4) := by
  rw [getGamma_eq (by norm_num),
    show (1 - (3 / 5 : ℝ) ^ 2) = (4 / 5) ^ 2 by norm_num,
    Real.sqrt_sq (by norm_num)]
  norm_num

lemma getGamma_neg_three_fifths : getGamma (-(3 / 5)) = some (5 / 4) := by
  rw [getGamma_neg]
  exact getGamma_three_fifths

/-- C1: the z-branch of `lorentzBoost` computes the boosted energy from
the x momentum component instead of the z component: at
p = (e 2, px 1, py 0, pz 0) and beta = 3/5 (gamma = 5/4) it returns
energy 7/4, while gamma * (e - beta * pz) = 5/2. -/
theorem lorentzBoost_z_energy_uses_px :
    lorentzBoost ⟨2, 1, 0, 0⟩ (3 / 5) ("z") =
      some (some ⟨7 / 4, 1, 0, -(3 / 2)⟩) ∧
    (7 / 4 : ℝ) ≠ 5 / 4 * (2 - 3 / 5 * 0) := by
  constructor
  · rw [lorentzBoost_z_eq getGamma_three_fifths]
    norm_num
  · norm_num

/-- C2: the boost round trip fails on the z axis: boosting
(2, 1, 0, 0) by beta = 3/5 and then by -3/5 along z yields
(47/16, 1, 0, -9/16), not the original four-momentum. -/
theorem lorentzBoost_z_roundtrip_fails :
    lorentzBoost ⟨2, 1, 0, 0⟩ (3 / 5) ("z") =
      some (some ⟨7 / 4, 1, 0, -(3 / 2)⟩) ∧
    lorentzBoost ⟨7 / 4, 1, 0, -(3 / 2)⟩ (-(3 / 5)) ("z") =
      some (some ⟨47 / 16, 1, 0, -(9 / 16)⟩) ∧
    FourMomentum.mk (47 / 16) 1 0 (-(9 / 16)) ≠ ⟨2, 1, 0, 0⟩ := by
  refine ⟨?_, ?_, ?_⟩
  · rw [lorentzBoost_z_eq getGamma_three_fifths]
    norm_num
  · rw [lorentzBoost_z_eq getGamma_neg_three_fifths]
    norm_num
  · intro hcontra
    have := congrArg FourMomentum.e hcontra
    norm_num at this

/-- C3: the z boost does not preserve invariant mass: the on-shell
four-momentum (1, 1, 0, 0) has mass 0, but its z boost at beta = 3/5 is
(1/2, 1, 0, -3/4), whose mass squared is -21/16, so mass extraction
raises instead of returning 0. -/
theorem lorentzBoost_z_mass_not_preserved :
    getMassFromMomentum ⟨1, 1, 0, 0⟩ = some 0 ∧
    lorentzBoost ⟨1, 1, 0, 0⟩ (3 / 5) ("z") =
      some (some ⟨1 / 2, 1, 0, -(3 / 4)⟩) ∧
    getMassFromMomentum ⟨1 / 2, 1, 0, -(3 / 4)⟩ = none := by
  refine ⟨?_, ?_, ?_⟩
  · rw [getMassFromMomentum, sqrtE_of_nonneg (by norm_num)]
    rw [show ((1 : ℝ) ^ 2 - 1 ^ 2 - 0 ^ 2 - 0 ^ 2) = 0 by norm_num,
      Real.sqrt_zero]
  · rw [lorentzBoost_z_eq getGamma_three_fifths]
    norm_num
  · rw [getMassFromMomentum, sqrtE_of_neg]
    norm_num

/-- C4: `restFrameDecay` violates energy conservation for unequal
daughter masses: at (m0, m1, m2) = (10, 3, 1) the daughter energies are
sqrt 30 and sqrt 22 (momenta +-(1/2) sqrt 84), and
sqrt 30 + sqrt 22 > 10 = m0.  (The momentum formula lacks the Kallen
factor; it is exact only when the daughters recoil with these energies
summing to m0, which requires m1 = m2.) -/
theorem restFrameDecay_energy_not_conserved :
    restFrameDecay 10 3 1 =
      some (⟨Real.sqrt 30, 1 / 2 * Real.sqrt 84, 0, 0⟩,
            ⟨Real.sqrt 22, -(1 / 2 * Real.sqrt 84), 0, 0⟩) ∧
    Real.sqrt 30 + Real.sqrt 22 ≠ 10 := by
  have h84 : Real.sqrt 84 ^ 2 = 84 := Real.sq_sqrt (by norm_num)
  constructor
  · rw [restFrameDecay, restFrameMomenta,
      show ((10 : ℝ) ^ 2 - (3 + 1) ^ 2) = 84 by norm_num,
      sqrtE_of_nonneg (by norm_num : (0 : ℝ) ≤ 84), Option.map_some']
    rw [Option.some_bind,
      show ((3 : ℝ) ^ 2 + (1 / 2 * Real.sqrt 84) ^ 2) = 30 by
        rw [mul_pow, h84]; norm_num,
      sqrtE_of_nonneg (by norm_num : (0 : ℝ) ≤ 30), Option.some_bind,
      show ((1 : ℝ) ^ 2 + (-(1 / 2 * Real.sqrt 84)) ^ 2) = 22 by
        rw [neg_sq, mul_pow, h84]; norm_num,
      sqrtE_of_nonneg (by norm_num : (0 : ℝ) ≤ 22), Option.some_bind]
  · have h30 : (27 / 5 : ℝ) < Real.sqrt 30 :=
      (Real.lt_sqrt (by norm_num)).mpr (by norm_num)
    have h22 : (23 / 5 : ℝ) < Real.sqrt 22 :=
      (Real.lt_sqrt (by norm_num)).mpr (by norm_num)
    have hgt : (10 : ℝ) < Real.sqrt 30 + Real.sqrt 22 := by linarith
    exact ne_of_gt hgt

lemma lorentzBoost_x_eq {beta g : ℝ} (h : getGamma beta = some g)
    (p : FourMomentum) :
    lorentzBoost p beta ("x") =
      some (some ⟨g * (p.e - beta * p.px), g * (p.px - beta * p.e),
                  p.py, p.pz⟩) := by
  rw [lorentzBoost, h, Option.some_bind, if_pos rfl]

lemma lorentzBoost_y_eq {beta g : ℝ} (h : getGamma beta = some g)
    (p : FourMomentum) :
    lorentzBoost p beta ("y") =
      some (some ⟨g * (p.e - beta * p.py), p.px,
                  g * (p.py - beta * p.e), p.pz⟩) := by
  rw [lorentzBoost, h, Option.some_bind, if_neg (by decide), if_pos rfl]

lemma boostedE_x {beta g : ℝ} (h : getGamma beta = some g)
    (p : FourMomentum) :
    boostedE p beta ("x") =
      some ⟨g * (p.e - beta * p.px), g * (p.px - beta * p.e),
            p.py, p.pz⟩ := by
  rw [boostedE, lorentzBoost_x_eq h, Option.some_bind]

lemma boostedE_y {beta g : ℝ} (h : getGamma beta = some g)
    (p : FourMomentum) :
    boostedE p beta ("y") =
      some ⟨g * (p.e - beta * p.py), p.px,
            g * (p.py - beta * p.e), p.pz⟩ := by
  rw [boostedE, lorentzBoost_y_eq h, Option.some_bind]

lemma printDecay_eq {q0 q1 q2 : FourMomentum}
    (h0 : 0 ≤ q0.e ^ 2 - q0.px ^ 2 - q0.py ^ 2 - q0.pz ^ 2)
    (h1 : 0 ≤ q1.e ^ 2 - q1.px ^ 2 - q1.py ^ 2 - q1.pz ^ 2)
    (h2 : 0 ≤ q2.e ^ 2 - q2.px ^ 2 - q2.py ^ 2 - q2.pz ^ 2) :
    printDecay q0 q1 q2 = some (q0, q1, q2) := by
  rw [printDecay, getMassFromMomentum, getMassFromMomentum,
    getMassFromMomentum, sqrtE_of_nonneg h0, Option.some_bind,
    sqrtE_of_nonneg h1, Option.some_bind, sqrtE_of_nonneg h2,
    Option.some_bind, sqrtE_of_nonneg (by positivity), Option.some_bind,
    sqrtE_of_nonneg (by positivity), Option.some_bind,
    sqrtE_of_nonneg (by positivity), Option.some_bind]

lemma boost_x_msq (g beta : ℝ) (hg : g ^ 2 * (1 - beta ^ 2) = 1)
    (p : FourMomentum) :
    (g * (p.e - beta * p.px)) ^ 2 - (g * (p.px - beta * p.e)) ^ 2 -
        p.py ^ 2 - p.pz ^ 2 =
      p.e ^ 2 - p.px ^ 2 - p.py ^ 2 - p.pz ^ 2 := by
  linear_combination (p.e ^ 2 - p.px ^ 2) * hg

lemma boost_y_msq (g beta : ℝ) (hg : g ^ 2 * (1 - beta ^ 2) = 1)
    (p : FourMomentum) :
    (g * (p.e - beta * p.py)) ^ 2 - p.px ^ 2 -
        (g * (p.py - beta * p.e)) ^ 2 - p.pz ^ 2 =
      p.e ^ 2 - p.px ^ 2 - p.py ^ 2 - p.pz ^ 2 := by
  linear_combination (p.e ^ 2 - p.py ^ 2) * hg

/-- The record structure C7 asserts of the orchestrator, stated over the
embedded definitions: the rest-frame record is the mother at rest with the
two `restFrameDecay` daughters; with p0 = 0 exactly that record is
produced; with p0 > 0 exactly four records are produced, in order:
rest frame, boost along x with -beta, boost along x with +beta, boost
along y with -beta, each boost applied to all three rest-frame
particles. -/
def DecayRecordsSpec (m0 p0 m1 m2 : ℝ) : Prop :=
  ∃ d1 d2 : FourMomentum,
    restFrameDecay m0 m1 m2 = some (d1, d2) ∧
    (p0 = 0 → decayParticle m0 p0 m1 m2 = some [(⟨m0, 0, 0, 0⟩, d1, d2)]) ∧
    (0 < p0 → ∃ beta, getBeta m0 p0 = some beta ∧
      ∃ a0 a1 a2 b0 b1 b2 c0 c1 c2 : FourMomentum,
        lorentzBoost ⟨m0, 0, 0, 0⟩ (-beta) ("x") = some (some a0) ∧
        lorentzBoost d1 (-beta) ("x") = some (some a1) ∧
        lorentzBoost d2 (-beta) ("x") = some (some a2) ∧
        lorentzBoost ⟨m0, 0, 0, 0⟩ beta ("x") = some (some b0) ∧
        lorentzBoost d1 beta ("x") = some (some b1) ∧
        lorentzBoost d2 beta ("x") = some (some b2) ∧
        lorentzBoost ⟨m0, 0, 0, 0⟩ (-beta) ("y") = some (some c0) ∧
        lorentzBoost d1 (-beta) ("y") = some (some c1) ∧
        lorentzBoost d2 (-beta) ("y") = some (some c2) ∧
        decayParticle m0 p0 m1 m2 =
          some [(⟨m0, 0, 0, 0⟩, d1, d2), (a0, a1, a2),
                (b0, b1, b2), (c0, c1, c2)])

set_option maxHeartbeats 2000000 in
/-- C7 amended: for m0 > 0 (not merely m0 ≥ m1 + m2), nonnegative masses
and p0 ≥ 0, the orchestrator produces exactly one record when p0 = 0 and
exactly the four claimed records, in order, when p0 > 0. -/
theorem decayParticle_records (m0 p0 m1 m2 : ℝ) (hm0 : 0 < m0)
    (h1 : 0 ≤ m1) (h2 : 0 ≤ m2) (hf : m1 + m2 ≤ m0) (_hp : 0 ≤ p0) :
    DecayRecordsSpec m0 p0 m1 m2 := by
  have hm12 : 0 ≤ m1 + m2 := by linarith
  have hrad : (0 : ℝ) ≤ m0 ^ 2 - (m1 + m2) ^ 2 := by nlinarith
  set pm : ℝ := 1 / 2 * Real.sqrt (m0 ^ 2 - (m1 + m2) ^ 2) with hpm
  have hrfm : restFrameMomenta m0 m1 m2 = some (pm, -pm) := by
    rw [restFrameMomenta, sqrtE_of_nonneg hrad, Option.map_some', hpm]
  have he1rad : (0 : ℝ) ≤ m1 ^ 2 + pm ^ 2 := by positivity
  have he2rad : (0 : ℝ) ≤ m2 ^ 2 + (-pm) ^ 2 := by positivity
  set e1 : ℝ := Real.sqrt (m1 ^ 2 + pm ^ 2) with he1
  set e2 : ℝ := Real.sqrt (m2 ^ 2 + (-pm) ^ 2) with he2
  set d1 : FourMomentum := ⟨e1, pm, 0, 0⟩ with hd1
  set d2 : FourMomentum := ⟨e2, -pm, 0, 0⟩ with hd2
  have hrfd : restFrameDecay m0 m1 m2 = some (d1, d2) := by
    rw [restFrameDecay, hrfm, Option.some_bind]
    dsimp only
    rw [sqrtE_of_nonneg he1rad, Option.some_bind,
      sqrtE_of_nonneg he2rad, Option.some_bind, ← he1, ← he2, ← hd1, ← hd2]
  have hsq1 : e1 ^ 2 = m1 ^ 2 + pm ^ 2 := by
    rw [he1]; exact Real.sq_sqrt he1rad
  have hsq2 : e2 ^ 2 = m2 ^ 2 + (-pm) ^ 2 := by
    rw [he2]; exact Real.sq_sqrt he2rad
  have hmom : 0 ≤ m0 ^ 2 - (0 : ℝ) ^ 2 - 0 ^ 2 - 0 ^ 2 := by
    nlinarith [sq_nonneg m0]
  have hmsq1 : 0 ≤ e1 ^ 2 - pm ^ 2 - (0 : ℝ) ^ 2 - 0 ^ 2 := by
    rw [hsq1]; nlinarith [sq_nonneg m1]
  have hmsq2 : 0 ≤ e2 ^ 2 - (-pm) ^ 2 - (0 : ℝ) ^ 2 - 0 ^ 2 := by
    rw [hsq2]; nlinarith [sq_nonneg m2]
  have hprint0 : printDecay ⟨m0, 0, 0, 0⟩ d1 d2 = some (⟨m0, 0, 0, 0⟩, d1, d2) :=
    printDecay_eq hmom hmsq1 hmsq2
  refine ⟨d1, d2, hrfd, ?_, ?_⟩
  · intro hp0
    rw [decayParticle, hrfd, Option.some_bind]
    dsimp only
    rw [hprint0, Option.some_bind, if_pos hp0]
  · intro hp0'
    have hpos : (0 : ℝ) < m0 ^ 2 + p0 ^ 2 := by positivity
    have hb : getBeta m0 p0 = some (Real.sqrt (p0 ^ 2 / (m0 ^ 2 + p0 ^ 2))) := by
      rw [getBeta, divE_of_ne (ne_of_gt hpos), Option.some_bind,
        sqrtE_of_nonneg (div_nonneg (sq_nonneg p0) hpos.le)]
    set b : ℝ := Real.sqrt (p0 ^ 2 / (m0 ^ 2 + p0 ^ 2)) with hbdef
    have hb2 : b ^ 2 = p0 ^ 2 / (m0 ^ 2 + p0 ^ 2) := by
      rw [hbdef]; exact Real.sq_sqrt (div_nonneg (sq_nonneg p0) hpos.le)
    have hblt : b ^ 2 < 1 := by
      rw [hb2, div_lt_one hpos]; nlinarith
    have hgb : getGamma b = some (1 / Real.sqrt (1 - b ^ 2)) := getGamma_eq hblt
    have hgnb : getGamma (-b) = some (1 / Real.sqrt (1 - b ^ 2)) := by
      rw [getGamma_neg]; exact hgb
    set g : ℝ := 1 / Real.sqrt (1 - b ^ 2) with hgdef
    have h1b : (0 : ℝ) < 1 - b ^ 2 := by linarith
    have hg2 : g ^ 2 * (1 - b ^ 2) = 1 := by
      rw [hgdef, div_pow, one_pow, Real.sq_sqrt h1b.le]
      field_simp
    have hgn2 : g ^ 2 * (1 - (-b) ^ 2) = 1 := by rw [neg_sq]; exact hg2
    set A0 : FourMomentum :=
      ⟨g * (m0 - -b * 0), g * (0 - -b * m0), 0, 0⟩ with hA0
    set A1 : FourMomentum :=
      ⟨g * (e1 - -b * pm), g * (pm - -b * e1), 0, 0⟩ with hA1
    set A2 : FourMomentum :=
      ⟨g * (e2 - -b * -pm), g * (-pm - -b * e2), 0, 0⟩ with hA2
    set B0 : FourMomentum :=
      ⟨g * (m0 - b * 0), g * (0 - b * m0), 0, 0⟩ with hB0
    set B1 : FourMomentum :=
      ⟨g * (e1 - b * pm), g * (pm - b * e1), 0, 0⟩ with hB1
    set B2 : FourMomentum :=
      ⟨g * (e2 - b * -pm), g * (-pm - b * e2), 0, 0⟩ with hB2
    set C0 : FourMomentum :=
      ⟨g * (m0 - -b * 0), 0, g * (0 - -b * m0), 0⟩ with hC0
    set C1 : FourMomentum :=
      ⟨g * (e1 - -b * 0), pm, g * (0 - -b * e1), 0⟩ with hC1
    set C2 : FourMomentum :=
      ⟨g * (e2 - -b * 0), -pm, g * (0 - -b * e2), 0⟩ with hC2
    have hq0a : boostedE ⟨m0, 0, 0, 0⟩ (-b) ("x") = some A0 := by
      rw [hA0]; exact boostedE_x hgnb _
    have hq1a : boostedE d1 (-b) ("x") = some A1 := by
      rw [hA1, hd1]; exact boostedE_x hgnb _
    have hq2a : boostedE d2 (-b) ("x") = some A2 := by
      rw [hA2, hd2]; exact boostedE_x hgnb _
    have hq0b : boostedE ⟨m0, 0, 0, 0⟩ b ("x") = some B0 := by
      rw [hB0]; exact boostedE_x hgb _
    have hq1b : boostedE d1 b ("x") = some B1 := by
      rw [hB1, hd1]; exact boostedE_x hgb _
    have hq2b : boostedE d2 b ("x") = some B2 := by
      rw [hB2, hd2]; exact boostedE_x hgb _
    have hq0c : boostedE ⟨m0, 0, 0, 0⟩ (-b) ("y") = some C0 := by
      rw [hC0]; exact boostedE_y hgnb _
    have hq1c : boostedE d1 (-b) ("y") = some C1 := by
      rw [hC1, hd1]; exact boostedE_y hgnb _
    have hq2c : boostedE d2 (-b) ("y") = some C2 := by
      rw [hC2, hd2]; exact boostedE_y hgnb _
    have hA0m : 0 ≤ A0.e ^ 2 - A0.px ^ 2 - A0.py ^ 2 - A0.pz ^ 2 := by
      rw [hA0]
      have hx : (g * (m0 - -b * 0)) ^ 2 - (g * (0 - -b * m0)) ^ 2 -
          (0 : ℝ) ^ 2 - 0 ^ 2 = m0 ^ 2 - 0 ^ 2 - 0 ^ 2 - 0 ^ 2 :=
        boost_x_msq g (-b) hgn2 ⟨m0, 0, 0, 0⟩
      dsimp only
      rw [hx]; exact hmom
    have hA1m : 0 ≤ A1.e ^ 2 - A1.px ^ 2 - A1.py ^ 2 - A1.pz ^ 2 := by
      rw [hA1]
      have hx : (g * (e1 - -b * pm)) ^ 2 - (g * (pm - -b * e1)) ^ 2 -
          (0 : ℝ) ^ 2 - 0 ^ 2 = e1 ^ 2 - pm ^ 2 - 0 ^ 2 - 0 ^ 2 :=
        boost_x_msq g (-b) hgn2 ⟨e1, pm, 0, 0⟩
      dsimp only
      rw [hx]; exact hmsq1
    have hA2m : 0 ≤ A2.e ^ 2 - A2.px ^ 2 - A2.py ^ 2 - A2.pz ^ 2 := by
      rw [hA2]
      have hx : (g * (e2 - -b * -pm)) ^ 2 - (g * (-pm - -b * e2)) ^ 2 -
          (0 : ℝ) ^ 2 - 0 ^ 2 = e2 ^ 2 - (-pm) ^ 2 - 0 ^ 2 - 0 ^ 2 :=
        boost_x_msq g (-b) hgn2 ⟨e2, -pm, 0, 0⟩
      dsimp only
      rw [hx]; exact hmsq2
    have hB0m : 0 ≤ B0.e ^ 2 - B0.px ^ 2 - B0.py ^ 2 - B0.pz ^ 2 := by
      rw [hB0]
      have hx : (g * (m0 - b * 0)) ^ 2 - (g * (0 - b * m0)) ^ 2 -
          (0 : ℝ) ^ 2 - 0 ^ 2 = m0 ^ 2 - 0 ^ 2 - 0 ^ 2 - 0 ^ 2 :=
        boost_x_msq g b hg2 ⟨m0, 0, 0, 0⟩
      dsimp only
      rw [hx]; exact hmom
    have hB1m : 0 ≤ B1.e ^ 2 - B1.px ^ 2 - B1.py ^ 2 - B1.pz ^ 2 := by
      rw [hB1]
      have hx : (g * (e1 - b * pm)) ^ 2 - (g * (pm - b * e1)) ^ 2 -
          (0 : ℝ) ^ 2 - 0 ^ 2 = e1 ^ 2 - pm ^ 2 - 0 ^ 2 - 0 ^ 2 :=
        boost_x_msq g b hg2 ⟨e1, pm, 0, 0⟩
      dsimp only
      rw [hx]; exact hmsq1
    have hB2m : 0 ≤ B2.e ^ 2 - B2.px ^ 2 - B2.py ^ 2 - B2.pz ^ 2 := by
      rw [hB2]
      have hx : (g * (e2 - b * -pm)) ^ 2 - (g * (-pm - b * e2)) ^ 2 -
          (0 : ℝ) ^ 2 - 0 ^ 2 = e2 ^ 2 - (-pm) ^ 2 - 0 ^ 2 - 0 ^ 2 :=
        boost_x_msq g b hg2 ⟨e2, -pm, 0, 0⟩
      dsimp only
      rw [hx]; exact hmsq2
    have hC0m : 0 ≤ C0.e ^ 2 - C0.px ^ 2 - C0.py ^ 2 - C0.pz ^ 2 := by
      rw [hC0]
      have hx : (g * (m0 - -b * 0)) ^ 2 - (0 : ℝ) ^ 2 -
          (g * (0 - -b * m0)) ^ 2 - 0 ^ 2 = m0 ^ 2 - 0 ^ 2 - 0 ^ 2 - 0 ^ 2 :=
        boost_y_msq g (-b) hgn2 ⟨m0, 0, 0, 0⟩
      dsimp only
      rw [hx]; exact hmom
    have hC1m : 0 ≤ C1.e ^ 2 - C1.px ^ 2 - C1.py ^ 2 - C1.pz ^ 2 := by
      rw [hC1]
      have hx : (g * (e1 - -b * 0)) ^ 2 - pm ^ 2 -
          (g * (0 - -b * e1)) ^ 2 - (0 : ℝ) ^ 2 =
            e1 ^ 2 - pm ^ 2 - 0 ^ 2 - 0 ^ 2 :=
        boost_y_msq g (-b) hgn2 ⟨e1, pm, 0, 0⟩
      dsimp only
      rw [hx]; exact hmsq1
    have hC2m : 0 ≤ C2.e ^ 2 - C2.px ^ 2 - C2.py ^ 2 - C2.pz ^ 2 := by
      rw [hC2]
      have hx : (g * (e2 - -b * 0)) ^ 2 - (-pm) ^ 2 -
          (g * (0 - -b * e2)) ^ 2 - (0 : ℝ) ^ 2 =
            e2 ^ 2 - (-pm) ^ 2 - 0 ^ 2 - 0 ^ 2 :=
        boost_y_msq g (-b) hgn2 ⟨e2, -pm, 0, 0⟩
      dsimp only
      rw [hx]; exact hmsq2
    refine ⟨b, hb, A0, A1, A2, B0, B1, B2, C0, C1, C2,
      ?_, ?_, ?_, ?_, ?_, ?_, ?_, ?_, ?_, ?_⟩
    · rw [hA0]; exact lorentzBoost_x_eq hgnb _
    · rw [hA1, hd1]; exact lorentzBoost_x_eq hgnb _
    · rw [hA2, hd2]; exact lorentzBoost_x_eq hgnb _
    · rw [hB0]; exact lorentzBoost_x_eq hgb _
    · rw [hB1, hd1]; exact lorentzBoost_x_eq hgb _
    · rw [hB2, hd2]; exact lorentzBoost_x_eq hgb _
    · rw [hC0]; exact lorentzBoost_y_eq hgnb _
    · rw [hC1, hd1]; exact lorentzBoost_y_eq hgnb _
    · rw [hC2, hd2]; exact lorentzBoost_y_eq hgnb _
    · rw [decayParticle, hrfd, Option.some_bind]
      dsimp only
      rw [hprint0, Option.some_bind, if_neg (ne_of_gt hp0'), hb,
        Option.some_bind]
      rw [hq0a, Option.some_bind, hq1a, Option.some_bind, hq2a,
        Option.some_bind]
      rw [printDecay_eq hA0m hA1m hA2m, Option.some_bind]
      rw [hq0b, Option.some_bind, hq1b, Option.some_bind, hq2b,
        Option.some_bind]
      rw [printDecay_eq hB0m hB1m hB2m, Option.some_bind]
      rw [hq0c, Option.some_bind, hq1c, Option.some_bind, hq2c,
        Option.some_bind]
      rw [printDecay_eq hC0m hC1m hC2m, Option.some_bind]

/-- Witness for C7 amended at (m0, p0, m1, m2) = (2, 1, 1, 1). -/
theorem decayParticle_records_witness :
    (0 : ℝ) < 2 ∧ (0 : ℝ) ≤ 1 ∧ (1 : ℝ) + 1 ≤ 2 ∧
    DecayRecordsSpec 2 1 1 1 :=
  ⟨by norm_num, by norm_num, by norm_num,
    decayParticle_records 2 1 1 1 (by norm_num) (by norm_num) (by norm_num)
      (by norm_num) (by norm_num)⟩

/-- C7 counterexample: at m0 = 0, p0 = 1 (which satisfies m0 ≥ m1 + m2 ≥ 0
and p0 ≥ 0 with m1 = m2 = 0) the computed beta is 1, so gamma divides by
zero and the orchestrator raises instead of producing four records. -/
theorem decayParticle_zero_mother_mass : decayParticle 0 1 0 0 = none := by
  have hrfm : restFrameMomenta 0 0 0 = some (0, 0) := by
    rw [restFrameMomenta, show ((0 : ℝ) ^ 2 - (0 + 0) ^ 2) = 0 by norm_num,
      sqrtE_of_nonneg le_rfl, Real.sqrt_zero, Option.map_some']
    norm_num
  have hrfd : restFrameDecay 0 0 0 = some (⟨0, 0, 0, 0⟩, ⟨0, 0, 0, 0⟩) := by
    rw [restFrameDecay, hrfm, Option.some_bind]
    dsimp only
    rw [show ((0 : ℝ) ^ 2 + (0 : ℝ) ^ 2) = 0 by norm_num,
      sqrtE_of_nonneg le_rfl, Real.sqrt_zero, Option.some_bind,
      Option.some_bind]
  have hbeta : getBeta 0 1 = some 1 := by
    rw [getBeta, divE_of_ne (by norm_num : ((0 : ℝ) ^ 2 + 1 ^ 2) ≠ 0),
      Option.some_bind,
      show ((1 : ℝ) ^ 2 / ((0 : ℝ) ^ 2 + 1 ^ 2)) = 1 by norm_num,
      sqrtE_of_nonneg (by norm_num), Real.sqrt_one]
  have hgamma : getGamma (-1 : ℝ) = none := by
    rw [getGamma_neg, getGamma, show (1 - (1 : ℝ) ^ 2) = 0 by norm_num,
      sqrtE_of_nonneg le_rfl, Real.sqrt_zero, Option.some_bind, divE,
      if_pos rfl]
  have hboost : boostedE ⟨0, 0, 0, 0⟩ (-1 : ℝ) ("x") = none := by
    rw [boostedE, lorentzBoost, hgamma, Option.none_bind, Option.none_bind]
  rw [decayParticle, hrfd, Option.some_bind]
  dsimp only
  rw [printDecay_eq (by norm_num) (by norm_num) (by norm_num),
    Option.some_bind, if_neg (by norm_num : (1 : ℝ) ≠ 0), hbeta,
    Option.some_bind, hboost, Option.none_bind]
